import Mathlib

/-
Verification development for the rtpengine-mon repository.

The Go sources are shallowly embedded as follows:

* Go maps are association lists (`List (κ × α)`) with the Go map
  operations `alookup` (m[k]), `ainsert` (m[k] = v, replacing an
  existing binding) and `aerase` (delete(m, k)).
* The engine (rtpengine) is external: its responses, and the results of
  external library calls (pion WebRTC operations, the bencode decoder),
  enter the model as explicit oracle parameters.  Everything that the
  repository's own code does with those results is translated
  statement-for-statement from the Go source.
* Peer connections and tracks are identified by numeric handles
  allocated from a counter; a registry keeps the closed flag of each
  allocated peer connection, so that `pc.Close()` is observable.
  Session ids are freshly generated UUID strings in Go; the model draws
  them from the same counter, which preserves exactly the property the
  code relies on: freshness.
* Engine commands issued by the service (subscribe request, subscribe
  answer, unsubscribe) are recorded in an event log in program order.
* The only lock that matters for the translated control flow is
  `Service.sourcesMu`: `StartSpySession` holds it across source
  creation, and `cleanupSource` acquires it again.  Go's sync.RWMutex
  is not reentrant, so an acquisition while the same call stack already
  holds the lock never returns.  The state carries a `sourcesMuHeld`
  flag and `cleanupSource` reports a stuck acquisition; the `Out`
  result type has a `deadlock` outcome for it.  The other mutexes
  (sessionsMu, source.mu) are only ever taken around plain map
  accesses on the paths modelled here and are not represented.
-/

namespace RtpMon

/-! ## Association lists (Go maps) -/

def alookup {κ : Type} [DecidableEq κ] {α : Type} (k : κ) : List (κ × α) → Option α
  | [] => none
  | (k1, v) :: t => if k = k1 then some v else alookup k t

def ainsert {κ : Type} [DecidableEq κ] {α : Type} (k : κ) (v : α) : List (κ × α) → List (κ × α)
  | [] => [(k, v)]
  | (k1, v1) :: t => if k = k1 then (k, v) :: t else (k1, v1) :: ainsert k v t

def aerase {κ : Type} [DecidableEq κ] {α : Type} (k : κ) : List (κ × α) → List (κ × α)
  | [] => []
  | (k1, v1) :: t => if k = k1 then t else (k1, v1) :: aerase k t

/-! ## Engine control client: `sendCommand` (client.go:64-118)

The bencoded response dictionary is modelled by `Bval`; the external
bencode-go decoder is an oracle field of `Wire` (it maps the bytes
after the space separator to `some` decoded value or `none` on a decode
error).  A UDP read failure and the 2-second read-deadline expiry are
indistinguishable to the Go code (both are errors from ReadFromUDP), so
both are `readResult = none`. -/

inductive Bval : Type where
  | str (s : String)
  | int (n : Int)
  | vals (l : List Bval)
  | dict (d : List (String × Bval))

structure Wire : Type where
  writeOk : Bool
  readResult : Option (List Nat)
  decode : List Nat → Option Bval

inductive CmdError : Type where
  | transport (msg : String)
  | protocol (msg : String)
  | engine (reason : Option Bval)

/-- bytes.IndexByte(respBuf[:n], ' '): index of the first space byte. -/
def findSpace (l : List Nat) : Option Nat :=
  l.findIdx? (fun b => b = 32)

def dlookup (k : String) (d : List (String × Bval)) : Option Bval :=
  alookup k d

/-- The check at client.go:112: the type assertion
resp["result"].(string) succeeds and the string equals "error". -/
def isErrorResult (d : List (String × Bval)) : Bool :=
  match dlookup "result" d with
  | some (.str s) => s == "error"
  | _ => false

/-- Translation of client.go:64-118 (sendCommand), with the cookie
generation, tracing and metric counters dropped (they do not affect the
returned value).  bencode.Marshal of the argument maps used by this
client cannot fail, so marshalling is not an error source here. -/
def sendCommand (w : Wire) : Except CmdError (List (String × Bval)) :=
  if ¬ w.writeOk then .error (.transport "failed to write to udp")
  else
    match w.readResult with
    | none => .error (.transport "failed to read from udp")
    | some bytes =>
      match findSpace bytes with
      | none => .error (.protocol "invalid response format (no space)")
      | some spaceIdx =>
        match w.decode (bytes.drop (spaceIdx + 1)) with
        | none => .error (.protocol "decode error")
        | some (.dict resp) =>
          if isErrorResult resp then .error (.engine (dlookup "error-reason" resp))
          else .ok resp
        | some _ => .error (.protocol "decoded response is not a map")

/-! ## Tag discovery: `detectTags` (client.go:613-647)

The `tags` value of the query response is an association list from tag
string to `TagVal`; `TagVal.notDict` stands for a value that is not a
dictionary, and the `created` field is `none` when absent or not a
number.  A missing `tags` key (or a non-map `tags` value) is `none`.
Where the Go code reads a float64 `created` it converts it with
int64(c); the model carries the already-converted integer.  The Go code
sorts with sort.Slice and the strict comparator at client.go:639-644;
any correct sort of that comparator yields the unique list that is a
permutation of the input and pairwise ordered by `tagLeP` (see
`tagLeP_antisymm` below), so the model uses insertion sort. -/

inductive TagVal : Type where
  | notDict
  | dict (created : Option Int)
deriving DecidableEq

/-- Extraction of `created` at client.go:627-634: zero when the tag
value is not a dictionary or carries no numeric `created`. -/
def extractCreated : TagVal → Int
  | .notDict => 0
  | .dict none => 0
  | .dict (some c) => c

structure TagInfo : Type where
  tag : String
  created : Int
deriving DecidableEq

/-- The strict comparator passed to sort.Slice (client.go:639-644). -/
def tagLess (a b : TagInfo) : Bool :=
  if a.created = b.created then decide (a.tag < b.tag) else decide (a.created < b.created)

/-- The ordering the sorted slice satisfies: a ≤ b iff not (b < a). -/
def tagLeP (a b : TagInfo) : Prop :=
  tagLess b a = false

instance : DecidableRel tagLeP := fun a b => by
  unfold tagLeP
  infer_instance

/-- The ordering in the specification's words: ascending `created`,
ties broken on the tag string lexicographically. -/
def byCreatedThenTag (a b : TagInfo) : Prop :=
  a.created < b.created ∨ (a.created = b.created ∧ a.tag ≤ b.tag)

def mkInfos (tagsMap : List (String × TagVal)) : List TagInfo :=
  tagsMap.map (fun p => ⟨p.1, extractCreated p.2⟩)

/-- Translation of client.go:613-647 (detectTags), with the engine
query factored into its result.  `query = .ok none` is the case where
the response has no `tags` map. -/
def detectTags (query : Except String (Option (List (String × TagVal)))) :
    Except String (String × String) :=
  match query with
  | .error e => .error e
  | .ok none => .error "not enough tags found"
  | .ok (some tagsMap) =>
    if tagsMap.length < 2 then .error "not enough tags found"
    else
      match List.insertionSort tagLeP (mkInfos tagsMap) with
      | a :: b :: _ => .ok (a.tag, b.tag)
      | _ => .error "not enough tags found"

/-! ## SDP rewrite (client.go:788)

strings.ReplaceAll(sdp, "m=audio 0", "m=audio 9") over a non-empty
pattern: scan left to right, replacing each leftmost non-overlapping
occurrence.  `repFuel` is the fuel-indexed worker (fuel bounds the
number of characters still to be scanned), `replaceAllStr` instantiates
it; `rewriteSDP` is the concrete call the Go code makes. -/

/-- leadsWith pat s: pat is an initial segment of s. -/
def leadsWith : List Char → List Char → Bool
  | [], _ => true
  | _ :: _, [] => false
  | p :: ps, c :: cs => if p = c then leadsWith ps cs else false

def repFuel (pat rep : List Char) : Nat → List Char → List Char
  | _, [] => []
  | 0, s => s
  | fuel + 1, c :: rest =>
    if pat ≠ [] ∧ leadsWith pat (c :: rest) then
      rep ++ repFuel pat rep fuel ((c :: rest).drop pat.length)
    else
      c :: repFuel pat rep fuel rest

def replaceAllStr (s pat rep : String) : String :=
  ⟨repFuel pat.data rep.data s.data.length s.data⟩

/-- The rewrite at client.go:788:
strings.ReplaceAll(pc.LocalDescription().SDP, "m=audio 0", "m=audio 9"). -/
def rewriteSDP (sdp : String) : String :=
  replaceAllStr sdp "m=audio 0" "m=audio 9"

/-- No occurrence of pat starts before position n in s. -/
abbrev noHitBefore (pat s : List Char) (n : Nat) : Prop :=
  ∀ i, i < n → leadsWith pat (s.drop i) = false

/-! ## Fan-out reader (client.go:657-691 and 697-728)

The body of the goroutine spawned per backend track.  Its loop state is
the `sessionTracks` snapshot and `lastSessionCount`; one iteration
reads the current value of `source.Sessions` (under source.mu.RLock),
refreshes the snapshot only when the cardinality changed, dequeues one
RTP packet, and writes it to every track in the snapshot.  A trace is
the per-iteration list of spectator track handles present in
`source.Sessions` at that iteration; `readerStateAt tr i` is the loop
state after the first i iterations, so the recipients of the packet
dequeued at iteration i are `(readerStateAt tr (i+1)).sessionTracks`. -/

structure ReaderState : Type where
  sessionTracks : List Nat
  lastSessionCount : Nat
deriving DecidableEq

/-- One iteration of the loop at client.go:661-687, up to the point
where the dequeued packet is written to every track of the snapshot. -/
def readerStep (cur : List Nat) (st : ReaderState) : ReaderState :=
  if cur.length ≠ st.lastSessionCount then ⟨cur, cur.length⟩
  else st

/-- Loop state after the first i iterations of a trace, starting from
the zero state of the two variables declared at client.go:658-659. -/
def readerStateAt (tr : List (List Nat)) (i : Nat) : ReaderState :=
  (tr.take i).foldl (fun st cur => readerStep cur st) ⟨[], 0⟩

/-! ## Spy service state (client.go:451-466, part_001 Source/Session) -/

inductive EngineEvent : Type where
  | subscribe (callID tag : String)
  | subscribeAnswer (callID sdp toTag : String)
  | unsubscribe (callID toTag : String)
deriving DecidableEq

structure Session : Type where
  id : Nat
  pc : Nat
  trackFrom : Nat
  trackTo : Nat
deriving DecidableEq

structure Source : Type where
  callID : String
  fromTag : String
  toTag : String
  pcFrom : Option Nat
  pcTo : Option Nat
  subTagFrom : String
  subTagTo : String
  sessions : List (Nat × Session)
deriving DecidableEq

/-- NewSource (part_001): empty session map, nil peer connections. -/
def newSource (callID fromTag toTag : String) : Source :=
  ⟨callID, fromTag, toTag, none, none, "", "", []⟩

structure SpyState : Type where
  sources : List (String × Source)
  sessions : List (Nat × Session)
  pcClosed : List (Nat × Bool)
  nextId : Nat
  events : List EngineEvent
  sourcesMuHeld : Bool
deriving DecidableEq

def initState : SpyState :=
  ⟨[], [], [], 0, [], false⟩

def closePC (st : SpyState) (pc : Nat) : SpyState :=
  { st with pcClosed := ainsert pc true st.pcClosed }

def newPC (st : SpyState) : SpyState × Nat :=
  ({ st with pcClosed := ainsert st.nextId false st.pcClosed, nextId := st.nextId + 1 },
   st.nextId)

/-- Outcome of a service operation: a value, an error string, or a
self-deadlock on sourcesMu. -/
inductive Out (α : Type) : Type where
  | ok (a : α)
  | err (e : String)
  | deadlock
deriving DecidableEq

/-- Oracle for one backend subscription leg: the engine's response to
`subscribe request` (sdp is `none` when the response has no string
"sdp" key; toTag is "" when "to-tag" is missing, matching the Go
two-valued type assertions), the outcomes of the pion calls, the SDP
the local answer settles on after ICE gathering, and the engine's
response to `subscribe answer`. -/
structure LegOracle : Type where
  newPCOk : Bool
  subscribe : Except String (Option String × String)
  setRemoteOk : Bool
  createAnswerOk : Bool
  setLocalOk : Bool
  localSDP : String
  answer : Except String Unit

/-- Translation of client.go:740-797 (setupBackendSubscription).  The
OnTrack / OnConnectionStateChange handler installation has no effect on
this state; handlers are modelled as the separate transitions below. -/
def setupBackendSubscription (st : SpyState) (callID tag : String) (o : LegOracle) :
    SpyState × Except String (Nat × String) :=
  if ¬ o.newPCOk then (st, .error "failed to create peer connection")
  else
    let (st1, pcId) := newPC st
    let st2 := { st1 with events := st1.events ++ [.subscribe callID tag] }
    match o.subscribe with
    | .error e => (closePC st2 pcId, .error e)
    | .ok (sdpField, subscriptionTag) =>
      match sdpField with
      | none => (closePC st2 pcId, .error "invalid SDP from rtpengine")
      | some offerSDP =>
        if offerSDP = "" then (closePC st2 pcId, .error "invalid SDP from rtpengine")
        else if ¬ o.setRemoteOk then (closePC st2 pcId, .error "failed to set remote description")
        else if ¬ o.createAnswerOk then (closePC st2 pcId, .error "failed to create answer")
        else if ¬ o.setLocalOk then (closePC st2 pcId, .error "failed to set local description")
        else
          let finalSDP := rewriteSDP o.localSDP
          let st3 := { st2 with events := st2.events ++ [.subscribeAnswer callID finalSDP subscriptionTag] }
          match o.answer with
          | .error e => (closePC st3 pcId, .error e)
          | .ok _ => (st3, .ok (pcId, subscriptionTag))

/-- Translation of client.go:876-895 (cleanupSource).  The Bool result
is false when the sourcesMu acquisition self-deadlocks (the Go function
starts with s.sourcesMu.Lock()).  The asynchronous goroutine that
closes the peer connections and unsubscribes runs to completion here;
the claims it serves only require that it eventually runs.  The
source.cancel() call only signals the fan-out readers and has no
footprint in this state.  The fields read (PCFrom, SubTagFrom, PCTo,
SubTagTo) come from the *Source argument, exactly as in Go. -/
def cleanupSource (st : SpyState) (src : Source) : SpyState × Bool :=
  if st.sourcesMuHeld then (st, false)
  else
    match alookup src.callID st.sources with
    | none => (st, true)
    | some _ =>
      let st1 := { st with sources := aerase src.callID st.sources }
      let st2 :=
        match src.pcFrom with
        | some pc =>
          { closePC st1 pc with
              events := st1.events ++ [.unsubscribe src.callID src.subTagFrom] }
        | none => st1
      let st3 :=
        match src.pcTo with
        | some pc =>
          { closePC st2 pc with
              events := st2.events ++ [.unsubscribe src.callID src.subTagTo] }
        | none => st2
      (st3, true)

structure SourceOracle : Type where
  fromLeg : LegOracle
  toLeg : LegOracle

/-- Translation of client.go:649-738 (createSource), fan-out goroutine
bodies excluded (they are `readerStep`).  On a to-leg failure the Go
code calls s.cleanupSource(source) before returning the error
(client.go:733); the deadlock outcome of that call propagates. -/
def createSource (st : SpyState) (callID fromTag toTag : String) (o : SourceOracle) :
    SpyState × Out Source :=
  let src := newSource callID fromTag toTag
  match setupBackendSubscription st callID fromTag o.fromLeg with
  | (st1, .error e) => (st1, .err ("failed to subscribe from-leg: " ++ e))
  | (st1, .ok (pcF, subF)) =>
    let src1 := { src with pcFrom := some pcF, subTagFrom := subF }
    match setupBackendSubscription st1 callID toTag o.toLeg with
    | (st2, .error e) =>
      match cleanupSource st2 src1 with
      | (st3, false) => (st3, .deadlock)
      | (st3, true) => (st3, .err ("failed to subscribe to-leg: " ++ e))
    | (st2, .ok (pcT, subT)) =>
      (st2, .ok { src1 with pcTo := some pcT, subTagTo := subT })

/-- Oracle for createSession: outcomes of the pion calls and the offer
SDP the browser peer connection settles on after ICE gathering. -/
structure SessionOracle : Type where
  newPCOk : Bool
  trackFromOk : Bool
  trackToOk : Bool
  addTrackFromOk : Bool
  addTrackToOk : Bool
  createOfferOk : Bool
  setLocalOk : Bool
  offerSDP : String

/-- Translation of client.go:799-856 (createSession).  The Go function
receives the *Source pointer; the model receives its call id and
updates the table entry, which is the same object while the Source is
in the table.  Note the translation preserves the two error returns at
client.go:844-847 and 849-851 that do not close the peer connection. -/
def createSession (st : SpyState) (callID : String) (o : SessionOracle) :
    SpyState × Except String (Nat × String) :=
  if ¬ o.newPCOk then (st, .error "failed to create peer connection")
  else
    let (st1, pcId) := newPC st
    if ¬ o.trackFromOk then (closePC st1 pcId, .error "failed to create track from")
    else
      let trackF := st1.nextId
      let st2 := { st1 with nextId := st1.nextId + 1 }
      if ¬ o.trackToOk then (closePC st2 pcId, .error "failed to create track to")
      else
        let trackT := st2.nextId
        let st3 := { st2 with nextId := st2.nextId + 1 }
        if ¬ o.addTrackFromOk then (closePC st3 pcId, .error "failed to add track from")
        else if ¬ o.addTrackToOk then (closePC st3 pcId, .error "failed to add track to")
        else
          let sid := st3.nextId
          let sess : Session := ⟨sid, pcId, trackF, trackT⟩
          let st4 := { st3 with
            nextId := st3.nextId + 1,
            sessions := ainsert sid sess st3.sessions,
            sources :=
              match alookup callID st3.sources with
              | some src =>
                ainsert callID { src with sessions := ainsert sid sess src.sessions } st3.sources
              | none => st3.sources }
          if ¬ o.createOfferOk then (st4, .error "failed to create offer")
          else if ¬ o.setLocalOk then (st4, .error "failed to set local description")
          else (st4, .ok (sid, o.offerSDP))

/-- Translation of client.go:858-874 (cleanupSession): remove the
session from the service table and from the given Source's session
map.  The Go function mutates the *Source struct even when that struct
is no longer in the table; a struct outside the table is unobservable
in this model, so only a table-resident Source is updated. -/
def cleanupSession (st : SpyState) (sid : Nat) (callID : String) : SpyState :=
  let st1 := { st with sessions := aerase sid st.sessions }
  { st1 with
    sources :=
      match alookup callID st1.sources with
      | some src => ainsert callID { src with sessions := aerase sid src.sessions } st1.sources
      | none => st1.sources }

structure SpyOracle : Type where
  query : Except String (Option (List (String × TagVal)))
  srcOracle : SourceOracle
  sessOracle : SessionOracle

/-- Translation of client.go:548-586 (StartSpySession).  The returned
quadruple is (sessionID, offerSDP, fromTag, toTag).  The sourcesMu
critical section of client.go:566-577 is explicit: the flag is set on
Lock and cleared on each Unlock; a deadlock inside createSource's
failure path leaves it set. -/
def StartSpySession (st : SpyState) (callID fromTag toTag : String) (o : SpyOracle) :
    SpyState × Out (Nat × String × String × String) :=
  let tagsR : Except String (String × String) :=
    if fromTag = "" ∨ toTag = "" then detectTags o.query
    else .ok (fromTag, toTag)
  match tagsR with
  | .error e => (st, .err ("failed to detect tags: " ++ e))
  | .ok (fromTag1, toTag1) =>
    let stL := { st with sourcesMuHeld := true }
    match alookup callID stL.sources with
    | some _ =>
      let stU := { stL with sourcesMuHeld := false }
      match createSession stU callID o.sessOracle with
      | (st2, .error e) => (st2, .err ("failed to create session: " ++ e))
      | (st2, .ok (sid, sdp)) => (st2, .ok (sid, sdp, fromTag1, toTag1))
    | none =>
      match createSource stL callID fromTag1 toTag1 o.srcOracle with
      | (st1, .deadlock) => (st1, Out.deadlock)
      | (st1, .err e) =>
        ({ st1 with sourcesMuHeld := false }, .err ("failed to create source: " ++ e))
      | (st1, .ok src) =>
        let stU := { st1 with sources := ainsert callID src st1.sources, sourcesMuHeld := false }
        match createSession stU callID o.sessOracle with
        | (st2, .error e) => (st2, .err ("failed to create session: " ++ e))
        | (st2, .ok (sid, sdp)) => (st2, .ok (sid, sdp, fromTag1, toTag1))

/-- Sequential composition of StartSpySession requests for one call id.
The whole check-create-insert section runs under sourcesMu and session
creation touches disjoint per-request data, so concurrent requests
serialize to this. -/
def runRequests (st : SpyState) (callID fromTag toTag : String) : List SpyOracle → SpyState
  | [] => st
  | o :: rest => runRequests (StartSpySession st callID fromTag toTag o).1 callID fromTag toTag rest

/-- Number of Sources in the table that hold session id sid. -/
def countSources (st : SpyState) (sid : Nat) : Nat :=
  st.sources.countP (fun p => (alookup sid p.2.sessions).isSome)

/-- The claimed bilateral consistency invariant: a session id is in the
service table iff exactly one table-resident Source holds it. -/
def consistent (st : SpyState) : Prop :=
  ∀ sid : Nat, (alookup sid st.sessions).isSome = true ↔ countSources st sid = 1

/-- Subscribe-request events for one call id. -/
def subCount (events : List EngineEvent) (callID : String) : Nat :=
  events.countP (fun e =>
    match e with
    | .subscribe c _ => c = callID
    | _ => false)

/-! Concrete oracles for witnesses and counterexamples. -/

def goodLeg : LegOracle :=
  ⟨true, .ok (some "v=0 offer", "subtag"), true, true, true,
   "v=0\r\nm=audio 0 UDP/TLS/RTP/SAVPF 0\r\n", .ok ()⟩

def badToLeg : LegOracle :=
  { goodLeg with subscribe := .error "rtpengine error: no such call" }

def goodSess : SessionOracle :=
  ⟨true, true, true, true, true, true, true, "v=0 browser offer"⟩

def goodSpy : SpyOracle :=
  ⟨.ok (some [("tagA", .dict (some 1000)), ("tagB", .dict (some 2000))]),
   ⟨goodLeg, goodLeg⟩, goodSess⟩

/-- Oracle whose to-leg subscribe fails after a successful from-leg. -/
def dlSpy : SpyOracle :=
  ⟨goodSpy.query, ⟨goodLeg, badToLeg⟩, goodSess⟩

/-- Session oracle failing at CreateOffer (client.go:844). -/
def badOfferSess : SessionOracle :=
  { goodSess with createOfferOk := false }

/-- Unsubscribe events in an event log. -/
def unsubCount (events : List EngineEvent) : Nat :=
  events.countP (fun e =>
    match e with
    | .unsubscribe _ _ => true
    | _ => false)

/-- Success of every externally-provided step of one backend leg. -/
def legOk (l : LegOracle) : Prop :=
  l.newPCOk = true ∧ (∃ sdp tg, l.subscribe = .ok (some sdp, tg) ∧ sdp ≠ "") ∧
  l.setRemoteOk = true ∧ l.createAnswerOk = true ∧ l.setLocalOk = true ∧
  (∃ u, l.answer = .ok u)

/-- Success of every externally-provided step of session creation. -/
def sessOk (o : SessionOracle) : Prop :=
  o.newPCOk = true ∧ o.trackFromOk = true ∧ o.trackToOk = true ∧
  o.addTrackFromOk = true ∧ o.addTrackToOk = true ∧
  o.createOfferOk = true ∧ o.setLocalOk = true

/-- A fully successful request environment: both legs succeed, session
creation succeeds, and tag detection (if consulted) resolves. -/
def goodOracle (o : SpyOracle) : Prop :=
  legOk o.srcOracle.fromLeg ∧ legOk o.srcOracle.toLeg ∧ sessOk o.sessOracle ∧
  (∃ f t, detectTags o.query = .ok (f, t))

/-- Structural well-formedness of the service state: the Go tables are
maps (distinct keys) and the id counter dominates every allocated
session id. -/
abbrev wf (st : SpyState) : Prop :=
  (st.sources.map Prod.fst).Nodup ∧
  (st.sessions.map Prod.fst).Nodup ∧
  (∀ p ∈ st.sources, (p.2.sessions.map Prod.fst).Nodup) ∧
  (∀ k ∈ st.sessions.map Prod.fst, k < st.nextId) ∧
  (∀ p ∈ st.sources, ∀ k ∈ p.2.sessions.map Prod.fst, k < st.nextId)

/-- State after one fully successful spy request on a fresh call. -/
def demoRunState : SpyState :=
  (StartSpySession initState "call-X" "tagA" "tagB" goodSpy).1

/-- The Source the demo run registered (the *Source the Go handlers
capture). -/
def demoRunSource : Source :=
  (alookup "call-X" demoRunState.sources).getD (newSource "" "" "")

/-- State after cleanupSource has destroyed the demo run's Source. -/
def demoCleanState : SpyState :=
  (cleanupSource demoRunState demoRunSource).1

/-- A state holding one Source with no session, used to exercise
createSession in isolation. -/
def demoSource : Source :=
  ⟨"call-X", "tagA", "tagB", some 100, some 101, "sf", "st", []⟩

def demoState : SpyState :=
  ⟨[("call-X", demoSource)], [], [], 0, [], false⟩

/-! ## Lemmas on association lists -/

theorem alookup_ainsert_self {κ : Type} [DecidableEq κ] {α : Type} (k : κ) (v : α)
    (l : List (κ × α)) : alookup k (ainsert k v l) = some v := by
  induction l with
  | nil => simp [alookup, ainsert]
  | cons h t ih =>
    obtain ⟨k1, v1⟩ := h
    by_cases hk : k = k1 <;> simp [alookup, ainsert, hk, ih]

theorem alookup_ainsert_ne {κ : Type} [DecidableEq κ] {α : Type} {k k2 : κ} (v : α)
    (l : List (κ × α)) (hne : k2 ≠ k) : alookup k2 (ainsert k v l) = alookup k2 l := by
  induction l with
  | nil => simp [alookup, ainsert, hne]
  | cons h t ih =>
    obtain ⟨k1, v1⟩ := h
    by_cases hk : k = k1
    · subst hk; simp [alookup, ainsert, hne]
    · by_cases hk2 : k2 = k1 <;> simp [alookup, ainsert, hk, hk2, ih]

theorem alookup_eq_none {κ : Type} [DecidableEq κ] {α : Type} {k : κ}
    {l : List (κ × α)} (hk : k ∉ l.map Prod.fst) : alookup k l = none := by
  induction l with
  | nil => simp [alookup]
  | cons h t ih =>
    obtain ⟨k1, v1⟩ := h
    simp only [List.map_cons, List.mem_cons] at hk
    push_neg at hk
    simp [alookup, hk.1, ih hk.2]

theorem alookup_aerase_self {κ : Type} [DecidableEq κ] {α : Type} (k : κ)
    (l : List (κ × α)) (hnd : (l.map Prod.fst).Nodup) : alookup k (aerase k l) = none := by
  induction l with
  | nil => simp [alookup, aerase]
  | cons h t ih =>
    obtain ⟨k1, v1⟩ := h
    simp only [List.map_cons, List.nodup_cons] at hnd
    by_cases hk : k = k1
    · subst hk
      simp only [aerase, if_pos rfl]
      exact alookup_eq_none hnd.1
    · simp [aerase, hk, alookup, ih hnd.2]

theorem alookup_aerase_ne {κ : Type} [DecidableEq κ] {α : Type} {k k2 : κ}
    (l : List (κ × α)) (hne : k2 ≠ k) : alookup k2 (aerase k l) = alookup k2 l := by
  induction l with
  | nil => simp [aerase]
  | cons h t ih =>
    obtain ⟨k1, v1⟩ := h
    by_cases hk : k = k1
    · subst hk; simp [aerase, alookup, hne]
    · by_cases hk2 : k2 = k1 <;> simp [aerase, alookup, hk, hk2, ih]

/-! ## The sort order used by detectTags -/

theorem tagLeP_iff (x y : TagInfo) : tagLeP x y ↔ byCreatedThenTag x y := by
  unfold tagLeP tagLess byCreatedThenTag
  by_cases h : y.created = x.created
  · rw [if_pos h, decide_eq_false_iff_not, not_lt]
    constructor
    · intro ht
      exact Or.inr ⟨h.symm, ht⟩
    · rintro (hlt | ⟨heq, ht⟩)
      · rw [h] at hlt
        exact absurd hlt (lt_irrefl _)
      · exact ht
  · rw [if_neg h, decide_eq_false_iff_not, not_lt]
    constructor
    · intro hle
      exact Or.inl (lt_of_le_of_ne hle (fun e => h e.symm))
    · rintro (hlt | ⟨heq, _⟩)
      · exact le_of_lt hlt
      · exact absurd heq.symm h

theorem tagLeP_total (a b : TagInfo) : tagLeP a b ∨ tagLeP b a := by
  rw [tagLeP_iff, tagLeP_iff]
  unfold byCreatedThenTag
  rcases lt_trichotomy a.created b.created with hc | hc | hc
  · exact Or.inl (Or.inl hc)
  · rcases le_total a.tag b.tag with ht | ht
    · exact Or.inl (Or.inr ⟨hc, ht⟩)
    · exact Or.inr (Or.inr ⟨hc.symm, ht⟩)
  · exact Or.inr (Or.inl hc)

theorem tagLeP_trans (a b c : TagInfo) (hab : tagLeP a b) (hbc : tagLeP b c) :
    tagLeP a c := by
  rw [tagLeP_iff] at *
  unfold byCreatedThenTag at *
  rcases hab with h1 | ⟨h1, h1t⟩ <;> rcases hbc with h2 | ⟨h2, h2t⟩
  · exact Or.inl (lt_trans h1 h2)
  · exact Or.inl (h2 ▸ h1)
  · exact Or.inl (h1 ▸ h2)
  · exact Or.inr ⟨h1.trans h2, le_trans h1t h2t⟩

theorem tagLeP_antisymm (a b : TagInfo) (hab : tagLeP a b) (hba : tagLeP b a) :
    a = b := by
  rw [tagLeP_iff] at hab hba
  rcases hab with h1 | ⟨h1, h1t⟩ <;> rcases hba with h2 | ⟨h2, h2t⟩
  · exact absurd (lt_trans h1 h2) (lt_irrefl _)
  · exact absurd (h2 ▸ h1) (lt_irrefl _)
  · exact absurd (h1 ▸ h2) (lt_irrefl _)
  · cases a; cases b
    simp only [TagInfo.mk.injEq]
    exact ⟨le_antisymm h1t h2t, h1⟩

/-- C4: if the query response carries a tags map with at least two
entries, detectTags returns the first two tags of the (unique) ordering
of the entries by ascending created value with lexicographic tie-break
on the tag; with fewer than two entries (including a missing or
non-map tags value) it fails with the not-enough-tags error. -/
theorem detectTags_ordered (tagsMap : List (String × TagVal)) :
    (2 ≤ tagsMap.length →
      ∃ a b rest,
        List.Perm (a :: b :: rest) (mkInfos tagsMap) ∧
        List.Sorted byCreatedThenTag (a :: b :: rest) ∧
        (∀ l2, List.Perm l2 (mkInfos tagsMap) → List.Sorted byCreatedThenTag l2 →
          l2 = a :: b :: rest) ∧
        detectTags (.ok (some tagsMap)) = .ok (a.tag, b.tag)) ∧
    (tagsMap.length < 2 →
      detectTags (.ok (some tagsMap)) = .error "not enough tags found") ∧
    detectTags (.ok (none : Option (List (String × TagVal)))) =
      .error "not enough tags found" := by
  haveI : IsTotal TagInfo tagLeP := ⟨tagLeP_total⟩
  haveI : IsTrans TagInfo tagLeP := ⟨tagLeP_trans⟩
  haveI : IsAntisymm TagInfo tagLeP := ⟨tagLeP_antisymm⟩
  refine ⟨?_, ?_, by simp [detectTags]⟩
  · intro h2
    have hperm : List.Perm (List.insertionSort tagLeP (mkInfos tagsMap)) (mkInfos tagsMap) :=
      List.perm_insertionSort tagLeP (mkInfos tagsMap)
    have hsort : List.Sorted tagLeP (List.insertionSort tagLeP (mkInfos tagsMap)) :=
      List.sorted_insertionSort tagLeP (mkInfos tagsMap)
    have hlen : (List.insertionSort tagLeP (mkInfos tagsMap)).length = tagsMap.length := by
      rw [hperm.length_eq]
      simp [mkInfos]
    rcases he : List.insertionSort tagLeP (mkInfos tagsMap) with _ | ⟨a, _ | ⟨b, rest⟩⟩
    · rw [he] at hlen; simp at hlen; omega
    · rw [he] at hlen; simp at hlen; omega
    · rw [he] at hperm hsort
      refine ⟨a, b, rest, hperm, ?_, ?_, ?_⟩
      · exact hsort.imp (fun h => (tagLeP_iff _ _).mp h)
      · intro l2 hp2 hs2
        have hs2le : List.Sorted tagLeP l2 := hs2.imp (fun h => (tagLeP_iff _ _).mpr h)
        exact List.eq_of_perm_of_sorted (hp2.trans hperm.symm) hs2le hsort
      · simp only [detectTags, he]
        rw [if_neg (by omega)]
  · intro hlt
    simp [detectTags, hlt]

/-- Witness for C4 at the concrete tags map of the repository's own
TestDetectTags "swapped order in map" case. -/
theorem detectTags_ordered_witness :
    (∃ a b rest,
      List.Perm (a :: b :: rest)
        (mkInfos [("tag-callee", TagVal.dict (some 2000)), ("tag-caller", TagVal.dict (some 1000))]) ∧
      List.Sorted byCreatedThenTag (a :: b :: rest) ∧
      (∀ l2, List.Perm l2
          (mkInfos [("tag-callee", TagVal.dict (some 2000)), ("tag-caller", TagVal.dict (some 1000))]) →
          List.Sorted byCreatedThenTag l2 → l2 = a :: b :: rest) ∧
      detectTags (.ok (some [("tag-callee", TagVal.dict (some 2000)), ("tag-caller", TagVal.dict (some 1000))])) =
        .ok (a.tag, b.tag)) ∧
    detectTags (.ok (some [("tag1", TagVal.dict (some 1000))])) = .error "not enough tags found" :=
  ⟨(detectTags_ordered _).1 (by decide),
   (detectTags_ordered [("tag1", TagVal.dict (some 1000))]).2.1 (by decide)⟩

/-! ## C5: sendCommand error mapping -/

/-- C5: sendCommand fails exactly on: write failure or read failure
(the 2-second deadline expiry is a read failure) as transport errors; a
response without a space separator, or whose bytes after the first
space do not bencode-decode to a dictionary, as protocol errors; or a
decoded dictionary whose result key is the string "error", as an
engine error carrying the response's error-reason.  In every other
case it returns the decoded dictionary without error. -/
theorem sendCommand_error_mapping (w : Wire) :
    (w.writeOk = false → sendCommand w = .error (.transport "failed to write to udp")) ∧
    (w.writeOk = true → w.readResult = none →
      sendCommand w = .error (.transport "failed to read from udp")) ∧
    (∀ bytes, w.writeOk = true → w.readResult = some bytes → findSpace bytes = none →
      sendCommand w = .error (.protocol "invalid response format (no space)")) ∧
    (∀ bytes i, w.writeOk = true → w.readResult = some bytes → findSpace bytes = some i →
      w.decode (bytes.drop (i + 1)) = none →
      sendCommand w = .error (.protocol "decode error")) ∧
    (∀ bytes i v, w.writeOk = true → w.readResult = some bytes → findSpace bytes = some i →
      w.decode (bytes.drop (i + 1)) = some v → (∀ d, v ≠ .dict d) →
      sendCommand w = .error (.protocol "decoded response is not a map")) ∧
    (∀ bytes i d, w.writeOk = true → w.readResult = some bytes → findSpace bytes = some i →
      w.decode (bytes.drop (i + 1)) = some (.dict d) → isErrorResult d = true →
      sendCommand w = .error (.engine (dlookup "error-reason" d))) ∧
    (∀ bytes i d, w.writeOk = true → w.readResult = some bytes → findSpace bytes = some i →
      w.decode (bytes.drop (i + 1)) = some (.dict d) → isErrorResult d = false →
      sendCommand w = .ok d) := by
  refine ⟨?_, ?_, ?_, ?_, ?_, ?_, ?_⟩
  · intro hw
    simp [sendCommand, hw]
  · intro hw hr
    simp [sendCommand, hw, hr]
  · intro bytes hw hr hf
    simp [sendCommand, hw, hr, hf]
  · intro bytes i hw hr hf hd
    simp [sendCommand, hw, hr, hf, hd]
  · intro bytes i v hw hr hf hd hnd
    cases v with
    | dict d => exact absurd rfl (hnd d)
    | str s => simp [sendCommand, hw, hr, hf, hd]
    | int n => simp [sendCommand, hw, hr, hf, hd]
    | vals l => simp [sendCommand, hw, hr, hf, hd]
  · intro bytes i d hw hr hf hd he
    simp [sendCommand, hw, hr, hf, hd, he]
  · intro bytes i d hw hr hf hd he
    simp [sendCommand, hw, hr, hf, hd, he]

/-- Witness for C5: a well-formed success response, and an engine-error
response whose error-reason is surfaced. -/
theorem sendCommand_error_mapping_witness :
    sendCommand ⟨true, some [97, 98, 32, 100], fun _ => some (.dict [("result", .str "ok")])⟩ =
      .ok [("result", .str "ok")] ∧
    sendCommand ⟨true, some [97, 98, 32, 100],
        fun _ => some (.dict [("result", .str "error"), ("error-reason", .str "no such call")])⟩ =
      .error (.engine (some (.str "no such call"))) :=
  ⟨(sendCommand_error_mapping _).2.2.2.2.2.2 [97, 98, 32, 100] 2 [("result", .str "ok")]
      rfl rfl (by decide) rfl (by decide),
   (sendCommand_error_mapping _).2.2.2.2.2.1 [97, 98, 32, 100] 2
      [("result", .str "error"), ("error-reason", .str "no such call")]
      rfl rfl (by decide) rfl (by decide)⟩

/-! ## Lemmas on the SDP rewrite -/

theorem leadsWith_append (l t : List Char) : leadsWith l (l ++ t) = true := by
  induction l with
  | nil => simp [leadsWith]
  | cons c cs ih => simp [leadsWith, ih]

theorem repFuel_irrel (pat rep : List Char) :
    ∀ f1 f2 s, s.length ≤ f1 → s.length ≤ f2 →
      repFuel pat rep f1 s = repFuel pat rep f2 s := by
  intro f1
  induction f1 with
  | zero =>
    intro f2 s h1 h2
    have hs : s = [] := List.eq_nil_of_length_eq_zero (by omega)
    subst hs
    cases f2 <;> simp [repFuel]
  | succ n ih =>
    intro f2 s h1 h2
    cases s with
    | nil => cases f2 <;> simp [repFuel]
    | cons c rest =>
      cases f2 with
      | zero => simp at h2
      | succ m =>
        simp only [repFuel]
        split
        · rename_i hcond
          have hp : 1 ≤ pat.length := List.length_pos.mpr hcond.1
          congr 1
          apply ih
          · simp only [List.length_drop, List.length_cons]
            simp only [List.length_cons] at h1
            omega
          · simp only [List.length_drop, List.length_cons]
            simp only [List.length_cons] at h2
            omega
        · congr 1
          apply ih
          · simp only [List.length_cons] at h1; omega
          · simp only [List.length_cons] at h2; omega

theorem repFuel_no_hit (pat rep : List Char) :
    ∀ s fuel, s.length ≤ fuel → (∀ i, leadsWith pat (s.drop i) = false) →
      repFuel pat rep fuel s = s := by
  intro s
  induction s with
  | nil => intro fuel _ _; cases fuel <;> simp [repFuel]
  | cons c rest ih =>
    intro fuel hf hn
    cases fuel with
    | zero => simp at hf
    | succ k =>
      simp only [repFuel]
      rw [if_neg]
      · congr 1
        apply ih
        · simp only [List.length_cons] at hf; omega
        · intro i
          have := hn (i + 1)
          simpa using this
      · have h0 := hn 0
        simp only [List.drop_zero] at h0
        simp [h0]

theorem repFuel_split (pat rep : List Char) (hp : pat ≠ []) :
    ∀ pre suf fuel, (pre ++ pat ++ suf).length ≤ fuel →
      noHitBefore pat (pre ++ pat ++ suf) pre.length →
      repFuel pat rep fuel (pre ++ pat ++ suf) =
        pre ++ rep ++ repFuel pat rep suf.length suf := by
  intro pre
  induction pre with
  | nil =>
    intro suf fuel hf hn
    obtain ⟨p, ps, rfl⟩ : ∃ p ps, pat = p :: ps := by
      cases pat with
      | nil => exact absurd rfl hp
      | cons p ps => exact ⟨p, ps, rfl⟩
    simp only [List.nil_append] at *
    cases fuel with
    | zero =>
      exfalso
      simp only [List.cons_append, List.length_cons] at hf
      omega
    | succ k =>
      simp only [List.cons_append, repFuel]
      rw [if_pos ⟨by simp, by
        have := leadsWith_append (p :: ps) suf
        simpa using this⟩]
      have hdrop : List.drop (p :: ps).length (p :: (ps ++ suf)) = suf := by
        have := List.drop_left (p :: ps) suf
        simp_all
      simp only [List.append_eq]
      rw [hdrop]
      have hlen : suf.length ≤ k := by
        simp only [List.cons_append, List.length_cons, List.length_append] at hf
        omega
      rw [repFuel_irrel (p :: ps) rep k suf.length suf hlen (le_refl _)]
  | cons c pre1 ih =>
    intro suf fuel hf hn
    cases fuel with
    | zero =>
      exfalso
      simp only [List.cons_append, List.length_cons] at hf
      omega
    | succ k =>
      have h0 : leadsWith pat (c :: (pre1 ++ (pat ++ suf))) = false := by
        have := hn 0 (by simp)
        simpa [List.append_assoc] using this
      simp only [List.cons_append, repFuel]
      rw [if_neg (by simp [h0])]
      have hn1 : noHitBefore pat (pre1 ++ pat ++ suf) pre1.length := by
        intro i hi
        have := hn (i + 1) (by simp only [List.length_cons]; omega)
        simpa using this
      have hf1 : (pre1 ++ pat ++ suf).length ≤ k := by
        simp only [List.cons_append, List.length_cons] at hf
        simp only [List.length_append]
        simp only [List.length_append] at hf
        omega
      have hstep := ih suf k hf1 hn1
      calc c :: repFuel pat rep k (pre1 ++ pat ++ suf)
          = c :: (pre1 ++ rep ++ repFuel pat rep suf.length suf) := by rw [hstep]
        _ = (c :: pre1) ++ rep ++ repFuel pat rep suf.length suf := by simp

/-- C8: a successful setupBackendSubscription sends, via subscribe
answer, exactly the local answer SDP rewritten by rewriteSDP; the
rewrite replaces each occurrence of "m=audio 0" (always a line prefix
in real SDPs) by "m=audio 9" and is byte-identical elsewhere: it is the
identity on occurrence-free text, and it maps pre ++ "m=audio 0" ++ suf
(pre occurrence-free up to its end) to pre ++ "m=audio 9" ++ the
rewrite of suf; the claim's concrete example line is rewritten exactly
as stated. -/
theorem rewriteSDP_spec :
    (∀ st callID tag o st2 pcId subTag,
      setupBackendSubscription st callID tag o = (st2, .ok (pcId, subTag)) →
      st2.events = st.events ++
        [.subscribe callID tag,
         .subscribeAnswer callID (rewriteSDP o.localSDP) subTag]) ∧
    (∀ s : List Char, (∀ i, leadsWith "m=audio 0".data (s.drop i) = false) →
      rewriteSDP ⟨s⟩ = ⟨s⟩) ∧
    (∀ pre suf : List Char,
      noHitBefore "m=audio 0".data (pre ++ "m=audio 0".data ++ suf) pre.length →
      rewriteSDP ⟨pre ++ "m=audio 0".data ++ suf⟩ =
        ⟨pre ++ "m=audio 9".data ++ (rewriteSDP ⟨suf⟩).data⟩) ∧
    rewriteSDP "v=0\r\no=- 1 1 IN IP4 0.0.0.0\r\ns=-\r\nm=audio 0 UDP/TLS/RTP/SAVPF 0\r\na=mid:0\r\n" =
      "v=0\r\no=- 1 1 IN IP4 0.0.0.0\r\ns=-\r\nm=audio 9 UDP/TLS/RTP/SAVPF 0\r\na=mid:0\r\n" := by
  refine ⟨?_, ?_, ?_, by decide⟩
  · intro st callID tag o st2 pcId subTag h
    simp only [setupBackendSubscription, newPC] at h
    split at h
    · simp at h
    · split at h
      · simp at h
      · split at h
        · simp at h
        · split at h
          · simp at h
          · split at h
            · simp at h
            · split at h
              · simp at h
              · split at h
                · simp at h
                · split at h
                  · simp at h
                  · simp only [Prod.mk.injEq, Except.ok.injEq] at h
                    obtain ⟨hst, hpc, htag⟩ := h
                    subst htag
                    rw [← hst]
                    simp
  · intro s hs
    unfold rewriteSDP replaceAllStr
    have : repFuel "m=audio 0".data "m=audio 9".data (String.data ⟨s⟩).length (String.data ⟨s⟩) = s :=
      repFuel_no_hit _ _ s s.length (le_refl _) hs
    simp_all
  · intro pre suf hn
    unfold rewriteSDP replaceAllStr
    have h1 : repFuel "m=audio 0".data "m=audio 9".data
        (pre ++ "m=audio 0".data ++ suf).length (pre ++ "m=audio 0".data ++ suf) =
        pre ++ "m=audio 9".data ++ repFuel "m=audio 0".data "m=audio 9".data suf.length suf :=
      repFuel_split _ _ (by decide) pre suf _ (le_refl _) hn
    simp_all

/-- Witness for C8: the event emitted by a concrete successful
subscription run, the rewrite of a concrete pre/needle/suf split, and
identity on a needle-free SDP. -/
theorem rewriteSDP_spec_witness :
    (setupBackendSubscription initState "call-X" "tagA" goodLeg).1.events =
      initState.events ++
        [.subscribe "call-X" "tagA",
         .subscribeAnswer "call-X" (rewriteSDP goodLeg.localSDP) "subtag"] ∧
    rewriteSDP ⟨"v=0\r\n".data ++ "m=audio 0".data ++ " UDP/TLS/RTP/SAVPF 0\r\n".data⟩ =
      ⟨"v=0\r\n".data ++ "m=audio 9".data ++ (rewriteSDP ⟨" UDP/TLS/RTP/SAVPF 0\r\n".data⟩).data⟩ ∧
    rewriteSDP "v=0\r\nm=video 0 X\r\n" = "v=0\r\nm=video 0 X\r\n" :=
  ⟨rewriteSDP_spec.1 initState "call-X" "tagA" goodLeg _ 0 "subtag" rfl,
   rewriteSDP_spec.2.2.1 "v=0\r\n".data " UDP/TLS/RTP/SAVPF 0\r\n".data (by decide),
   rewriteSDP_spec.2.1 "v=0\r\nm=video 0 X\r\n".data (by
     intro i
     by_cases hi : i < 22
     · interval_cases i <;> decide
     · rw [List.drop_eq_nil_of_le (by simp; omega)]
       decide)⟩

/-! ## C10: tag auto-detection condition in StartSpySession -/

/-- C10: auto-detection runs exactly when at least one supplied tag is
the empty string: in that case the whole request behaves identically to
a request with both tags empty (any supplied non-empty tag is
discarded and both used tags come from detection); when both tags are
supplied the query oracle is irrelevant; and a successful request that
auto-detected returns exactly the detected pair. -/
theorem startSpySession_tag_detection (st : SpyState) (callID fromTag toTag : String)
    (o : SpyOracle) (q2 : Except String (Option (List (String × TagVal)))) :
    (fromTag = "" ∨ toTag = "" →
      StartSpySession st callID fromTag toTag o = StartSpySession st callID "" "" o) ∧
    (fromTag ≠ "" → toTag ≠ "" →
      StartSpySession st callID fromTag toTag o =
        StartSpySession st callID fromTag toTag { o with query := q2 }) ∧
    (fromTag = "" ∨ toTag = "" → ∀ f2 t2, detectTags o.query = .ok (f2, t2) →
      ∀ st2 sid sdp rf rt,
        StartSpySession st callID fromTag toTag o = (st2, .ok (sid, sdp, rf, rt)) →
        rf = f2 ∧ rt = t2) := by
  refine ⟨?_, ?_, ?_⟩
  · intro h
    simp only [StartSpySession]
    rw [if_pos h]
    simp
  · intro h1 h2
    simp [StartSpySession, h1, h2]
  · intro h f2 t2 hdet st2 sid sdp rf rt hrun
    simp only [StartSpySession] at hrun
    rw [if_pos h] at hrun
    simp only [hdet] at hrun
    split at hrun
    · split at hrun
      · simp at hrun
      · simp only [Prod.mk.injEq, Out.ok.injEq] at hrun
        exact ⟨hrun.2.2.2.1.symm, hrun.2.2.2.2.symm⟩
    · split at hrun
      · simp at hrun
      · simp at hrun
      · split at hrun
        · simp at hrun
        · simp only [Prod.mk.injEq, Out.ok.injEq] at hrun
          exact ⟨hrun.2.2.2.1.symm, hrun.2.2.2.2.symm⟩

/-- Witness for C10: a request with a supplied from-tag but empty
to-tag behaves like a fully-empty request; the detected pair is what a
successful run returns; supplied tags make the query irrelevant. -/
theorem startSpySession_tag_detection_witness :
    StartSpySession initState "call-X" "supplied" "" goodSpy =
      StartSpySession initState "call-X" "" "" goodSpy ∧
    ("tagA" : String) = "tagA" ∧ ("tagB" : String) = "tagB" ∧
    StartSpySession initState "call-X" "ta" "tb" goodSpy =
      StartSpySession initState "call-X" "ta" "tb" { goodSpy with query := .error "q" } :=
  ⟨(startSpySession_tag_detection initState "call-X" "supplied" "" goodSpy (.error "q")).1
      (Or.inr rfl),
   ((startSpySession_tag_detection initState "call-X" "supplied" "" goodSpy (.error "q")).2.2
      (Or.inr rfl) "tagA" "tagB" rfl _ 5 "v=0 browser offer" "tagA" "tagB" rfl).1,
   ((startSpySession_tag_detection initState "call-X" "supplied" "" goodSpy (.error "q")).2.2
      (Or.inr rfl) "tagA" "tagB" rfl _ 5 "v=0 browser offer" "tagA" "tagB" rfl).2,
   (startSpySession_tag_detection initState "call-X" "ta" "tb" goodSpy (.error "q")).2.1
      (by decide) (by decide)⟩

/-! ## C3: fan-out reader snapshot semantics -/

theorem readerStateAt_succ (tr : List (List Nat)) (i : Nat) (hi : i < tr.length) :
    readerStateAt tr (i + 1) = readerStep tr[i] (readerStateAt tr i) := by
  unfold readerStateAt
  rw [List.take_succ, List.foldl_append]
  simp [List.getElem?_eq_getElem hi]

theorem readerStateAt_tracks_src (tr : List (List Nat)) :
    ∀ k, k ≤ tr.length → ∀ t, t ∈ (readerStateAt tr k).sessionTracks →
      ∃ j, ∃ hj : j < tr.length, j < k ∧ t ∈ tr[j] := by
  intro k
  induction k with
  | zero =>
    intro _ t ht
    simp [readerStateAt] at ht
  | succ k ih =>
    intro hk t ht
    have hklt : k < tr.length := by omega
    rw [readerStateAt_succ tr k hklt] at ht
    unfold readerStep at ht
    split at ht
    · exact ⟨k, hklt, by omega, ht⟩
    · obtain ⟨j, hj, hjk, hmem⟩ := ih (by omega) t ht
      exact ⟨j, hj, by omega, hmem⟩

/-- C3: at each loop iteration the packet's recipients are exactly the
reader's snapshot: the snapshot is left untouched when the current
session-map cardinality equals the remembered count, and is refreshed
to the current session list exactly when the cardinality differs; and
every track receiving the packet of iteration i was present in the
Source's session list at some iteration j ≤ i, so a spectator joining
only after the dequeue receives nothing. -/
theorem fanout_snapshot (tr : List (List Nat)) (i : Nat) (hi : i < tr.length) :
    (tr[i].length = (readerStateAt tr i).lastSessionCount →
      readerStateAt tr (i + 1) = readerStateAt tr i) ∧
    (tr[i].length ≠ (readerStateAt tr i).lastSessionCount →
      readerStateAt tr (i + 1) = ⟨tr[i], tr[i].length⟩) ∧
    (∀ t, t ∈ (readerStateAt tr (i + 1)).sessionTracks →
      ∃ j, ∃ hj : j < tr.length, j ≤ i ∧ t ∈ tr[j]) := by
  refine ⟨?_, ?_, ?_⟩
  · intro heq
    rw [readerStateAt_succ tr i hi]
    unfold readerStep
    rw [if_neg (by omega)]
  · intro hne
    rw [readerStateAt_succ tr i hi]
    unfold readerStep
    rw [if_pos hne]
  · intro t ht
    obtain ⟨j, hj, hjk, hmem⟩ := readerStateAt_tracks_src tr (i + 1) (by omega) t ht
    exact ⟨j, hj, by omega, hmem⟩

/-- Witness for C3 on the trace [[10], [10, 11], [10, 11]]: iteration 2
has an unchanged cardinality, so the snapshot is reused; track 10 of
packet 2's recipients joined at an iteration at or before 2. -/
theorem fanout_snapshot_witness :
    readerStateAt [[10], [10, 11], [10, 11]] 3 = readerStateAt [[10], [10, 11], [10, 11]] 2 ∧
    readerStateAt [[10], [10, 11], [10, 11]] 2 = ⟨[10, 11], 2⟩ ∧
    (∃ j, ∃ hj : j < ([[10], [10, 11], [10, 11]] : List (List Nat)).length,
      j ≤ 2 ∧ 10 ∈ ([[10], [10, 11], [10, 11]] : List (List Nat))[j]) :=
  ⟨(fanout_snapshot [[10], [10, 11], [10, 11]] 2 (by decide)).1 (by decide),
   (fanout_snapshot [[10], [10, 11], [10, 11]] 1 (by decide)).2.1 (by decide),
   (fanout_snapshot [[10], [10, 11], [10, 11]] 2 (by decide)).2.2 10 (by decide)⟩

/-! ## C1: failure during Source construction -/

/-- C1: tracing the code at the claimed scenario (from-leg subscription
established, then the engine fails the to-leg subscribe) refutes the
claimed cleanup: createSource calls cleanupSource while StartSpySession
still holds sourcesMu, which self-deadlocks (and its table guard would
find no entry anyway, the Source not being inserted yet), so the error
never surfaces, the from-leg peer connection (handle 0) stays open, no
unsubscribe is ever issued, and the lock is left held.  Only the
absence of the Source from the table holds as claimed. -/
theorem startSpySession_construction_failure :
    (StartSpySession initState "call-X" "tagA" "tagB" dlSpy).2 = Out.deadlock ∧
    alookup "call-X" (StartSpySession initState "call-X" "tagA" "tagB" dlSpy).1.sources = none ∧
    alookup 0 (StartSpySession initState "call-X" "tagA" "tagB" dlSpy).1.pcClosed = some false ∧
    alookup 1 (StartSpySession initState "call-X" "tagA" "tagB" dlSpy).1.pcClosed = some true ∧
    unsubCount (StartSpySession initState "call-X" "tagA" "tagB" dlSpy).1.events = 0 ∧
    subCount (StartSpySession initState "call-X" "tagA" "tagB" dlSpy).1.events "call-X" = 2 ∧
    (StartSpySession initState "call-X" "tagA" "tagB" dlSpy).1.sourcesMuHeld = true :=
  ⟨rfl, rfl, rfl, rfl, rfl, rfl, rfl⟩

/-! ## C7: closing the peer connection on error exits -/

theorem lookup_close_after_new (pcm : List (Nat × Bool)) (n pc : Nat)
    (hpc : alookup pc pcm = none) :
    alookup pc (ainsert n true (ainsert n false pcm)) ≠ some false := by
  by_cases h : pc = n
  · subst h
    rw [alookup_ainsert_self]
    simp
  · rw [alookup_ainsert_ne _ _ h, alookup_ainsert_ne _ _ h, hpc]
    simp

/-- C7: every error exit of setupBackendSubscription closes the peer
connection it created (no newly allocated handle is left open), but
createSession violates the claim: when CreateOffer fails, the error
returns with the browser peer connection (handle 0) still open and
the half-built session (id 3) still registered. -/
theorem pc_close_on_error :
    (∀ st callID tag o st2 e,
      setupBackendSubscription st callID tag o = (st2, .error e) →
      ∀ pc, alookup pc st.pcClosed = none → alookup pc st2.pcClosed ≠ some false) ∧
    ((createSession demoState "call-X" badOfferSess).2 = .error "failed to create offer" ∧
     alookup 0 (createSession demoState "call-X" badOfferSess).1.pcClosed = some false ∧
     (alookup 3 (createSession demoState "call-X" badOfferSess).1.sessions).isSome = true) := by
  constructor
  · intro st callID tag o st2 e h pc hpc
    simp only [setupBackendSubscription, newPC, closePC] at h
    split at h
    · simp only [Prod.mk.injEq] at h
      obtain ⟨hst, -⟩ := h
      rw [← hst]
      simp [hpc]
    · split at h
      · simp only [Prod.mk.injEq] at h
        obtain ⟨hst, -⟩ := h
        rw [← hst]
        simpa using lookup_close_after_new st.pcClosed st.nextId pc hpc
      · split at h
        · simp only [Prod.mk.injEq] at h
          obtain ⟨hst, -⟩ := h
          rw [← hst]
          simpa using lookup_close_after_new st.pcClosed st.nextId pc hpc
        · split at h
          · simp only [Prod.mk.injEq] at h
            obtain ⟨hst, -⟩ := h
            rw [← hst]
            simpa using lookup_close_after_new st.pcClosed st.nextId pc hpc
          · split at h
            · simp only [Prod.mk.injEq] at h
              obtain ⟨hst, -⟩ := h
              rw [← hst]
              simpa using lookup_close_after_new st.pcClosed st.nextId pc hpc
            · split at h
              · simp only [Prod.mk.injEq] at h
                obtain ⟨hst, -⟩ := h
                rw [← hst]
                simpa using lookup_close_after_new st.pcClosed st.nextId pc hpc
              · split at h
                · simp only [Prod.mk.injEq] at h
                  obtain ⟨hst, -⟩ := h
                  rw [← hst]
                  simpa using lookup_close_after_new st.pcClosed st.nextId pc hpc
                · split at h
                  · simp only [Prod.mk.injEq] at h
                    obtain ⟨hst, -⟩ := h
                    rw [← hst]
                    simpa using lookup_close_after_new st.pcClosed st.nextId pc hpc
                  · simp at h
  · exact ⟨rfl, rfl, rfl⟩

/-- Witness for C7: after a failing backend subscription on a fresh
state, the newly created peer connection handle 0 is not left open. -/
theorem pc_close_on_error_witness :
    alookup 0 (setupBackendSubscription initState "call-X" "tagA" badToLeg).1.pcClosed ≠
      some false :=
  pc_close_on_error.1 initState "call-X" "tagA" badToLeg
    (setupBackendSubscription initState "call-X" "tagA" badToLeg).1
    "rtpengine error: no such call" rfl 0 rfl

/-! ## C2: what cleanupSource destroys and what it leaves behind -/

/-- Counterexample to C2: after cleanupSource runs on the demo call,
the Source is gone, both backend peer connections (0, 1) are closed and
both unsubscribes were issued — but the spectator session (id 5) is
NOT destroyed: it is still in service.sessions and its browser peer
connection (handle 2) is still open, refuting the claim that every
attached Session is destroyed with its Source. -/
theorem cleanupSource_leaves_sessions :
    alookup "call-X" demoCleanState.sources = none ∧
    alookup 0 demoCleanState.pcClosed = some true ∧
    alookup 1 demoCleanState.pcClosed = some true ∧
    unsubCount demoCleanState.events = 2 ∧
    (alookup 5 demoCleanState.sessions).isSome = true ∧
    alookup 2 demoCleanState.pcClosed = some false :=
  ⟨rfl, rfl, rfl, rfl, rfl, rfl⟩

/-- C2 (amended): cleanupSource on a table-resident Source removes it
from service.sources, closes both backend peer connections, issues one
unsubscribe per subscription tag — and leaves service.sessions exactly
as it was: the spectator Sessions attached to the Source are not
destroyed (they are only reaped later by their own peer-connection
state-change handlers). -/
theorem cleanupSource_spec (st : SpyState) (src : Source) (pf pt : Nat)
    (hmu : st.sourcesMuHeld = false)
    (hnd : (st.sources.map Prod.fst).Nodup)
    (hsrc : (alookup src.callID st.sources).isSome = true)
    (hf : src.pcFrom = some pf) (ht : src.pcTo = some pt) (hne : pf ≠ pt) :
    (cleanupSource st src).2 = true ∧
    alookup src.callID (cleanupSource st src).1.sources = none ∧
    (cleanupSource st src).1.sessions = st.sessions ∧
    alookup pf (cleanupSource st src).1.pcClosed = some true ∧
    alookup pt (cleanupSource st src).1.pcClosed = some true ∧
    (cleanupSource st src).1.events = st.events ++
      [.unsubscribe src.callID src.subTagFrom, .unsubscribe src.callID src.subTagTo] := by
  obtain ⟨v, hv⟩ := Option.isSome_iff_exists.mp hsrc
  have hrw : cleanupSource st src =
      ({ st with
          sources := aerase src.callID st.sources,
          pcClosed := ainsert pt true (ainsert pf true st.pcClosed),
          events := st.events ++ [.unsubscribe src.callID src.subTagFrom] ++
            [.unsubscribe src.callID src.subTagTo] }, true) := by
    simp [cleanupSource, hmu, hv, hf, ht, closePC]
  rw [hrw]
  refine ⟨rfl, ?_, rfl, ?_, ?_, by simp⟩
  · exact alookup_aerase_self _ _ hnd
  · rw [alookup_ainsert_ne _ _ hne]
    exact alookup_ainsert_self _ _ _
  · exact alookup_ainsert_self _ _ _

/-- Witness for C2's amended theorem at the demo call. -/
theorem cleanupSource_spec_witness :
    (cleanupSource demoRunState demoRunSource).2 = true ∧
    alookup demoRunSource.callID (cleanupSource demoRunState demoRunSource).1.sources = none ∧
    (cleanupSource demoRunState demoRunSource).1.sessions = demoRunState.sessions ∧
    alookup 0 (cleanupSource demoRunState demoRunSource).1.pcClosed = some true ∧
    alookup 1 (cleanupSource demoRunState demoRunSource).1.pcClosed = some true ∧
    (cleanupSource demoRunState demoRunSource).1.events = demoRunState.events ++
      [.unsubscribe demoRunSource.callID demoRunSource.subTagFrom,
       .unsubscribe demoRunSource.callID demoRunSource.subTagTo] :=
  cleanupSource_spec demoRunState demoRunSource 0 1 rfl (by decide) rfl rfl rfl (by decide)

/-! ## Counting lemmas for the consistency invariant -/

theorem alookup_cons_self {κ : Type} [DecidableEq κ] {α : Type} (k : κ) (v : α)
    (t : List (κ × α)) : alookup k ((k, v) :: t) = some v := by
  simp [alookup]

theorem alookup_mem {κ : Type} [DecidableEq κ] {α : Type} {k : κ} {v : α}
    {l : List (κ × α)} (h : alookup k l = some v) : (k, v) ∈ l := by
  induction l with
  | nil => simp [alookup] at h
  | cons p t ih =>
    obtain ⟨k1, v1⟩ := p
    by_cases hk : k = k1
    · subst hk
      rw [alookup_cons_self] at h
      injection h with h
      subst h
      exact List.mem_cons_self _ _
    · simp only [alookup, if_neg hk] at h
      exact List.mem_cons_of_mem _ (ih h)

theorem alookup_isSome_of_mem {κ : Type} [DecidableEq κ] {α : Type} {k : κ}
    {l : List (κ × α)} (h : k ∈ l.map Prod.fst) : (alookup k l).isSome = true := by
  induction l with
  | nil => simp at h
  | cons p t ih =>
    obtain ⟨k1, v1⟩ := p
    by_cases hk : k = k1
    · subst hk; simp [alookup]
    · simp only [List.map_cons, List.mem_cons] at h
      rcases h with h | h

      · exact absurd h hk
      · simp only [alookup, if_neg hk]
        exact ih h

theorem countP_ainsert_eq {κ : Type} [DecidableEq κ] {α : Type} (q : κ × α → Bool)
    (k : κ) (v x : α) (l : List (κ × α)) (hx : alookup k l = some x)
    (hq : q (k, v) = q (k, x)) : (ainsert k v l).countP q = l.countP q := by
  induction l with
  | nil => simp [alookup] at hx
  | cons p t ih =>
    obtain ⟨k1, v1⟩ := p
    by_cases hk : k = k1
    · subst hk
      rw [alookup_cons_self] at hx
      injection hx with hx
      subst hx
      simp [ainsert, List.countP_cons, hq]
    · simp only [alookup, if_neg hk] at hx
      simp [ainsert, hk, List.countP_cons, ih hx]

theorem countP_ainsert_mk {κ : Type} [DecidableEq κ] {α : Type} (q : κ × α → Bool)
    (k : κ) (v x : α) (l : List (κ × α)) (hnd : (l.map Prod.fst).Nodup)
    (hx : alookup k l = some x)
    (hothers : ∀ p ∈ l, p.1 ≠ k → q p = false) :
    (ainsert k v l).countP q = if q (k, v) then 1 else 0 := by
  induction l with
  | nil => simp [alookup] at hx
  | cons p t ih =>
    obtain ⟨k1, v1⟩ := p
    simp only [List.map_cons, List.nodup_cons] at hnd
    by_cases hk : k = k1
    · subst hk
      have ht0 : t.countP q = 0 := by
        rw [List.countP_eq_zero]
        intro p hp
        have hpk : p.1 ≠ k := by
          intro hpk
          exact hnd.1 (hpk ▸ List.mem_map_of_mem Prod.fst hp)
        simp [hothers p (List.mem_cons_of_mem _ hp) hpk]
      simp [ainsert, List.countP_cons, ht0]
    · simp only [alookup, if_neg hk] at hx
      have hq1 : q (k1, v1) = false :=
        hothers (k1, v1) (List.mem_cons_self _ _) (fun h => hk h.symm)
      simp only [ainsert, if_neg (fun h => hk h)]
      rw [List.countP_cons]
      rw [ih hnd.2 hx (fun p hp hpk => hothers p (List.mem_cons_of_mem _ hp) hpk)]
      simp [hq1]

theorem countP_aerase_add {κ : Type} [DecidableEq κ] {α : Type} (q : κ × α → Bool)
    (k : κ) (x : α) (l : List (κ × α)) (hx : alookup k l = some x) :
    l.countP q = (aerase k l).countP q + (if q (k, x) then 1 else 0) := by
  induction l with
  | nil => simp [alookup] at hx
  | cons p t ih =>
    obtain ⟨k1, v1⟩ := p
    by_cases hk : k = k1
    · subst hk
      rw [alookup_cons_self] at hx
      injection hx with hx
      subst hx
      simp [aerase, List.countP_cons, Nat.add_comm]
    · simp only [alookup, if_neg hk] at hx
      simp only [aerase, if_neg hk]
      rw [List.countP_cons, List.countP_cons, ih hx]
      omega

/-! ## C6 support: bounded consistency check and state-shape lemmas -/

theorem consistent_iff_bounded (st : SpyState) (N : Nat)
    (h1 : ∀ k ∈ st.sessions.map Prod.fst, k < N)
    (h2 : ∀ p ∈ st.sources, ∀ k ∈ p.2.sessions.map Prod.fst, k < N) :
    consistent st ↔ ∀ sid, sid < N →
      ((alookup sid st.sessions).isSome = true ↔ countSources st sid = 1) := by
  constructor
  · intro hc sid _
    exact hc sid
  · intro hb sid
    by_cases hsid : sid < N
    · exact hb sid hsid
    · have hl : alookup sid st.sessions = none := by
        apply alookup_eq_none
        intro hmem
        exact hsid (h1 sid hmem)
      have hcnt : countSources st sid = 0 := by
        unfold countSources
        rw [List.countP_eq_zero]
        intro p hp
        have hn : alookup sid p.2.sessions = none := by
          apply alookup_eq_none
          intro hmem
          exact hsid (h2 p hp sid hmem)
        simp [hn]
      rw [hl, hcnt]
      simp

theorem consistent_congr (st1 st2 : SpyState) (hse : st1.sessions = st2.sessions)
    (hso : st1.sources = st2.sources) : consistent st1 ↔ consistent st2 := by
  unfold consistent countSources
  rw [hse, hso]

/-- The state produced by createSession once all five fallible creation
steps succeed (it is the same state whether or not the subsequent
CreateOffer / SetLocalDescription fail, since the session is registered
before those calls). -/
theorem createSession_state (st : SpyState) (callID : String) (o : SessionOracle) (src : Source)
    (h1 : o.newPCOk = true) (h2 : o.trackFromOk = true) (h3 : o.trackToOk = true)
    (h4 : o.addTrackFromOk = true) (h5 : o.addTrackToOk = true)
    (hsrc : alookup callID st.sources = some src) :
    (createSession st callID o).1 =
      { st with
        nextId := st.nextId + 4,
        pcClosed := ainsert st.nextId false st.pcClosed,
        sessions := ainsert (st.nextId + 3)
          ⟨st.nextId + 3, st.nextId, st.nextId + 1, st.nextId + 2⟩ st.sessions,
        sources := ainsert callID
          { src with
            sessions := ainsert (st.nextId + 3)
              ⟨st.nextId + 3, st.nextId, st.nextId + 1, st.nextId + 2⟩ src.sessions }
          st.sources } := by
  by_cases h6 : o.createOfferOk <;> by_cases h7 : o.setLocalOk <;>
    simp [createSession, newPC, h1, h2, h3, h4, h5, h6, h7, hsrc]

theorem cleanupSource_fields (st : SpyState) (src : Source) (v : Source)
    (hmu : st.sourcesMuHeld = false) (hv : alookup src.callID st.sources = some v) :
    (cleanupSource st src).1.sessions = st.sessions ∧
    (cleanupSource st src).1.sources = aerase src.callID st.sources := by
  rcases hpf : src.pcFrom with _ | pf <;> rcases hpt : src.pcTo with _ | pt <;>
    simp [cleanupSource, hmu, hv, hpf, hpt, closePC]

/-- C6 (amended): createSession (against a table-resident Source) and
cleanupSession preserve the bilateral consistency invariant, but
cleanupSource violates it whenever the destroyed Source still holds a
registered session: that session remains in service.sessions while no
table-resident Source holds it. -/
theorem session_consistency (st : SpyState) :
    (∀ callID o src, wf st → consistent st → alookup callID st.sources = some src →
      consistent (createSession st callID o).1) ∧
    (∀ sid callID, wf st → consistent st →
      (∀ p ∈ st.sources, (alookup sid p.2.sessions).isSome = true → p.1 = callID) →
      consistent (cleanupSession st sid callID)) ∧
    (∀ src sid, consistent st → st.sourcesMuHeld = false →
      alookup src.callID st.sources = some src →
      (alookup sid src.sessions).isSome = true →
      (alookup sid st.sessions).isSome = true →
      ¬ consistent (cleanupSource st src).1) := by
  refine ⟨?_, ?_, ?_⟩
  · intro callID o src hwf hc hsrc
    obtain ⟨hndSrc, hndSess, hndPer, hBound, hBoundSrc⟩ := hwf
    by_cases h1 : o.newPCOk
    · by_cases h2 : o.trackFromOk
      · by_cases h3 : o.trackToOk
        · by_cases h4 : o.addTrackFromOk
          · by_cases h5 : o.addTrackToOk
            · rw [createSession_state st callID o src h1 h2 h3 h4 h5 hsrc]
              intro s
              by_cases hs : s = st.nextId + 3
              · subst hs
                have hlhs : (alookup (st.nextId + 3)
                    (ainsert (st.nextId + 3)
                      (⟨st.nextId + 3, st.nextId, st.nextId + 1, st.nextId + 2⟩ : Session)
                      st.sessions)).isSome = true := by
                  rw [alookup_ainsert_self]
                  rfl
                have hothers : ∀ p ∈ st.sources, p.1 ≠ callID →
                    (fun p : String × Source =>
                      (alookup (st.nextId + 3) p.2.sessions).isSome) p = false := by
                  intro p hp _
                  have hn : alookup (st.nextId + 3) p.2.sessions = none := by
                    apply alookup_eq_none
                    intro hmem
                    have := hBoundSrc p hp (st.nextId + 3) hmem
                    omega
                  simp [hn]
                simp only [consistent, countSources]
                rw [hlhs]
                rw [countP_ainsert_mk _ callID _ src _ hndSrc hsrc hothers]
                simp [alookup_ainsert_self]
              · have hq : (alookup s
                    (ainsert (st.nextId + 3)
                      (⟨st.nextId + 3, st.nextId, st.nextId + 1, st.nextId + 2⟩ : Session)
                      src.sessions)).isSome =
                    (alookup s src.sessions).isSome := by
                  rw [alookup_ainsert_ne _ _ hs]
                simp only [consistent, countSources]
                rw [alookup_ainsert_ne _ _ hs]
                rw [countP_ainsert_eq _ callID _ src _ hsrc (by simpa using hq)]
                exact hc s
            · refine (consistent_congr _ _ ?_ ?_).mpr hc <;>
                simp [createSession, newPC, h1, h2, h3, h4, h5, closePC]
          · refine (consistent_congr _ _ ?_ ?_).mpr hc <;>
              simp [createSession, newPC, h1, h2, h3, h4, closePC]
        · refine (consistent_congr _ _ ?_ ?_).mpr hc <;>
            simp [createSession, newPC, h1, h2, h3, closePC]
      · refine (consistent_congr _ _ ?_ ?_).mpr hc <;>
          simp [createSession, newPC, h1, h2, closePC]
    · refine (consistent_congr _ _ ?_ ?_).mpr hc <;>
        simp [createSession, newPC, h1, closePC]
  · intro sid callID hwf hc hookup
    obtain ⟨hndSrc, hndSess, hndPer, hBound, hBoundSrc⟩ := hwf
    cases hsrcv : alookup callID st.sources with
    | none =>
      intro s
      simp only [cleanupSession, hsrcv]
      by_cases hs : s = sid
      · subst hs
        have hl : alookup s (aerase s st.sessions) = none :=
          alookup_aerase_self s st.sessions hndSess
        have hcnt : st.sources.countP
            (fun p => (alookup s p.2.sessions).isSome) = 0 := by
          rw [List.countP_eq_zero]
          intro p hp
          intro hq
          have hcall := hookup p hp (by simpa using hq)
          have hm : (alookup callID st.sources).isSome = true :=
            alookup_isSome_of_mem (hcall ▸ List.mem_map_of_mem Prod.fst hp)
          rw [hsrcv] at hm
          simp at hm
        simp [countSources, hl, hcnt]
      · have hl : alookup s (aerase sid st.sessions) = alookup s st.sessions :=
          alookup_aerase_ne st.sessions hs
        simpa [countSources, hl] using hc s
    | some src =>
      intro s
      simp only [cleanupSession, hsrcv]
      have hmem : (callID, src) ∈ st.sources := alookup_mem hsrcv
      have hndthis : (src.sessions.map Prod.fst).Nodup := hndPer (callID, src) hmem
      by_cases hs : s = sid
      · subst hs
        have hl : alookup s (aerase s st.sessions) = none :=
          alookup_aerase_self s st.sessions hndSess
        have hothers : ∀ p ∈ st.sources, p.1 ≠ callID →
            (fun p : String × Source => (alookup s p.2.sessions).isSome) p = false := by
          intro p hp hpk
          cases hqv : (alookup s p.2.sessions).isSome with
          | false => exact hqv
          | true => exact absurd (hookup p hp hqv) hpk
        have hq0 : (alookup s (aerase s src.sessions)).isSome = false := by
          rw [alookup_aerase_self s src.sessions hndthis]
          rfl
        simp only [countSources]
        rw [countP_ainsert_mk _ callID _ src _ hndSrc hsrcv hothers]
        simp [hl, hq0]
      · have hl : alookup s (aerase sid st.sessions) = alookup s st.sessions :=
          alookup_aerase_ne st.sessions hs
        have hq : (alookup s (aerase sid src.sessions)).isSome =
            (alookup s src.sessions).isSome := by
          rw [alookup_aerase_ne src.sessions hs]
        simp only [countSources]
        rw [countP_ainsert_eq _ callID _ src _ hsrcv (by simpa using hq)]
        simpa [hl] using hc s
  · intro src sid hc hmu hsrc hsid hsin hcon
    obtain ⟨hse, hso⟩ := cleanupSource_fields st src src hmu hsrc
    have h1 : (alookup sid (cleanupSource st src).1.sessions).isSome = true := by
      rw [hse]; exact hsin
    have h2 := (hcon sid).mp h1
    have h3 : countSources (cleanupSource st src).1 sid =
        (aerase src.callID st.sources).countP
          (fun p => (alookup sid p.2.sessions).isSome) := by
      unfold countSources
      rw [hso]
    have h4 := (hc sid).mp hsin
    have h5 := countP_aerase_add
      (fun p : String × Source => (alookup sid p.2.sessions).isSome)
      src.callID src st.sources hsrc
    rw [h3] at h2
    simp only [countSources] at h4
    simp only [hsid] at h5
    simp at h5
    omega

/-- Counterexample to C6: the state reached by one successful spy
request is bilaterally consistent, but after cleanupSource destroys its
Source the invariant is violated: session 5 is still in
service.sessions while no Source reachable from service.sources holds
it. -/
theorem consistency_violated :
    consistent demoRunState ∧ ¬ consistent demoCleanState := by
  constructor
  · exact (consistent_iff_bounded demoRunState 6 (by decide) (by decide)).mpr (by decide)
  · intro h
    have h1 := (h 5).mp (by decide)
    have h2 : countSources demoCleanState 5 = 0 := by decide
    omega

/-- Witness for C6's amended theorem at the demo state. -/
theorem session_consistency_witness :
    consistent (createSession demoRunState "call-X" goodSess).1 ∧
    consistent (cleanupSession demoRunState 5 "call-X") ∧
    ¬ consistent (cleanupSource demoRunState demoRunSource).1 :=
  ⟨(session_consistency demoRunState).1 "call-X" goodSess demoRunSource (by decide)
      ((consistent_iff_bounded demoRunState 6 (by decide) (by decide)).mpr (by decide)) rfl,
   (session_consistency demoRunState).2.1 5 "call-X" (by decide)
      ((consistent_iff_bounded demoRunState 6 (by decide) (by decide)).mpr (by decide))
      (by decide),
   (session_consistency demoRunState).2.2 demoRunSource 5
      ((consistent_iff_bounded demoRunState 6 (by decide) (by decide)).mpr (by decide))
      rfl rfl (by decide) (by decide)⟩

/-! ## C9 support: single-flight source creation -/

theorem subCount_append (a b : List EngineEvent) (c : String) :
    subCount (a ++ b) c = subCount a c + subCount b c := by
  simp [subCount, List.countP_append]

theorem mem_keys_ainsert {κ : Type} [DecidableEq κ] {α : Type} (x k : κ) (v : α)
    (l : List (κ × α)) :
    x ∈ (ainsert k v l).map Prod.fst ↔ x = k ∨ x ∈ l.map Prod.fst := by
  induction l with
  | nil => simp [ainsert]
  | cons p t ih =>
    obtain ⟨k1, v1⟩ := p
    by_cases h : k = k1
    · subst h
      simp [ainsert]
    · simp only [ainsert, if_neg h, List.map_cons, List.mem_cons, ih]
      tauto

theorem nodup_keys_ainsert {κ : Type} [DecidableEq κ] {α : Type} (k : κ) (v : α)
    (l : List (κ × α)) (hnd : (l.map Prod.fst).Nodup) :
    ((ainsert k v l).map Prod.fst).Nodup := by
  induction l with
  | nil => simp [ainsert]
  | cons p t ih =>
    obtain ⟨k1, v1⟩ := p
    simp only [List.map_cons, List.nodup_cons] at hnd
    by_cases h : k = k1
    · subst h
      simp [ainsert, hnd.1, hnd.2]
    · simp only [ainsert, if_neg h, List.map_cons, List.nodup_cons]
      refine ⟨?_, ih hnd.2⟩
      intro hmem
      rcases (mem_keys_ainsert k1 k v t).mp hmem with h1 | h1
      · exact h h1.symm
      · exact hnd.1 h1

theorem ainsert_length_of_none {κ : Type} [DecidableEq κ] {α : Type} (k : κ) (v : α)
    (l : List (κ × α)) (hk : alookup k l = none) :
    (ainsert k v l).length = l.length + 1 := by
  induction l with
  | nil => simp [ainsert]
  | cons p t ih =>
    obtain ⟨k1, v1⟩ := p
    by_cases h : k = k1
    · subst h
      simp [alookup] at hk
    · simp only [alookup, if_neg h] at hk
      simp [ainsert, h, ih hk]

theorem createSession_ok2 (st : SpyState) (callID : String) (o : SessionOracle)
    (hok : sessOk o) :
    (createSession st callID o).2 = .ok (st.nextId + 3, o.offerSDP) := by
  obtain ⟨h1, h2, h3, h4, h5, h6, h7⟩ := hok
  simp [createSession, newPC, h1, h2, h3, h4, h5, h6, h7]

theorem createSource_fields (st : SpyState) (callID fromTag toTag : String) (o : SourceOracle)
    (hf : legOk o.fromLeg) (ht : legOk o.toLeg) :
    ∃ src,
      createSource st callID fromTag toTag o =
        ((createSource st callID fromTag toTag o).1, Out.ok src) ∧
      src.callID = callID ∧
      src.sessions = [] ∧
      (createSource st callID fromTag toTag o).1.sources = st.sources ∧
      (createSource st callID fromTag toTag o).1.sessions = st.sessions ∧
      (createSource st callID fromTag toTag o).1.sourcesMuHeld = st.sourcesMuHeld ∧
      (createSource st callID fromTag toTag o).1.nextId = st.nextId + 2 ∧
      subCount (createSource st callID fromTag toTag o).1.events callID =
        subCount st.events callID + 2 := by
  obtain ⟨hf1, ⟨sdpF, tgF, hsubF, hsdpF⟩, hf3, hf4, hf5, uF, hf6⟩ := hf
  obtain ⟨ht1, ⟨sdpT, tgT, hsubT, hsdpT⟩, ht3, ht4, ht5, uT, ht6⟩ := ht
  refine ⟨⟨callID, fromTag, toTag, some st.nextId, some (st.nextId + 1), tgF, tgT, []⟩,
    ?_, rfl, rfl, ?_, ?_, ?_, ?_, ?_⟩ <;>
    simp [createSource, setupBackendSubscription, newPC, newSource, closePC,
      hf1, hsubF, hsdpF, hf3, hf4, hf5, hf6,
      ht1, hsubT, hsdpT, ht3, ht4, ht5, ht6,
      subCount, List.countP_append, List.countP_cons]

theorem startSpy_step_existing (st : SpyState) (callID fromTag toTag : String)
    (o : SpyOracle) (src : Source)
    (hgood : goodOracle o) (hmu : st.sourcesMuHeld = false)
    (hsrc : alookup callID st.sources = some src)
    (hb : ∀ k ∈ src.sessions.map Prod.fst, k < st.nextId) :
    ∃ v, StartSpySession st callID fromTag toTag o =
        ((StartSpySession st callID fromTag toTag o).1, Out.ok v) ∧
      (StartSpySession st callID fromTag toTag o).1.sourcesMuHeld = false ∧
      (StartSpySession st callID fromTag toTag o).1.nextId = st.nextId + 4 ∧
      subCount (StartSpySession st callID fromTag toTag o).1.events callID =
        subCount st.events callID ∧
      (∃ src2, alookup callID (StartSpySession st callID fromTag toTag o).1.sources = some src2 ∧
        src2.sessions.length = src.sessions.length + 1 ∧
        (∀ k ∈ src2.sessions.map Prod.fst,
          k < (StartSpySession st callID fromTag toTag o).1.nextId)) ∧
      ((st.sources.map Prod.fst).Nodup →
        ((StartSpySession st callID fromTag toTag o).1.sources.map Prod.fst).Nodup) := by
  obtain ⟨hfL, htL, hsess, f0, t0, hdet⟩ := hgood
  have htags : ∃ f1 t1, (if fromTag = "" ∨ toTag = "" then detectTags o.query
      else Except.ok (fromTag, toTag)) = Except.ok (f1, t1) := by
    split
    · exact ⟨f0, t0, hdet⟩
    · exact ⟨fromTag, toTag, rfl⟩
  obtain ⟨f1, t1, htags⟩ := htags
  rcases hcse : createSession { st with sourcesMuHeld := false } callID o.sessOracle
    with ⟨st2c, res⟩
  have hres : res = Except.ok (st.nextId + 3, o.sessOracle.offerSDP) := by
    have h := createSession_ok2 { st with sourcesMuHeld := false } callID o.sessOracle hsess
    rw [hcse] at h
    exact h
  subst hres
  have hst2c : st2c =
      { st with
        sourcesMuHeld := false,
        nextId := st.nextId + 4,
        pcClosed := ainsert st.nextId false st.pcClosed,
        sessions := ainsert (st.nextId + 3)
          ⟨st.nextId + 3, st.nextId, st.nextId + 1, st.nextId + 2⟩ st.sessions,
        sources := ainsert callID
          { src with
            sessions := ainsert (st.nextId + 3)
              ⟨st.nextId + 3, st.nextId, st.nextId + 1, st.nextId + 2⟩ src.sessions }
          st.sources } := by
    have h := createSession_state { st with sourcesMuHeld := false } callID o.sessOracle src
      hsess.1 hsess.2.1 hsess.2.2.1 hsess.2.2.2.1 hsess.2.2.2.2.1 hsrc
    rw [hcse] at h
    exact h
  have hrun : StartSpySession st callID fromTag toTag o =
      (st2c, Out.ok (st.nextId + 3, o.sessOracle.offerSDP, f1, t1)) := by
    simp only [StartSpySession, htags, hsrc, hcse]
  have hfresh : alookup (st.nextId + 3) src.sessions = none := by
    apply alookup_eq_none
    intro hmem
    have := hb _ hmem
    omega
  have hnid : (StartSpySession st callID fromTag toTag o).1.nextId = st.nextId + 4 := by
    rw [hrun, hst2c]
  refine ⟨(st.nextId + 3, o.sessOracle.offerSDP, f1, t1), ?_, ?_, ?_, ?_, ?_, ?_⟩
  · rw [hrun]
  · rw [hrun, hst2c]
  · exact hnid
  · rw [hrun, hst2c]
  · refine ⟨{ src with
        sessions := ainsert (st.nextId + 3)
          ⟨st.nextId + 3, st.nextId, st.nextId + 1, st.nextId + 2⟩ src.sessions }, ?_, ?_, ?_⟩
    · rw [hrun, hst2c]
      exact alookup_ainsert_self _ _ _
    · exact ainsert_length_of_none _ _ _ hfresh
    · intro k hk
      rw [hnid]
      rcases (mem_keys_ainsert k _ _ _).mp hk with h1 | h1
      · omega
      · have := hb _ h1
        omega
  · intro hnd
    rw [hrun, hst2c]
    exact nodup_keys_ainsert _ _ _ hnd

theorem startSpy_step_fresh (st : SpyState) (callID fromTag toTag : String) (o : SpyOracle)
    (hgood : goodOracle o) (hmu : st.sourcesMuHeld = false)
    (habs : alookup callID st.sources = none) :
    ∃ v, StartSpySession st callID fromTag toTag o =
        ((StartSpySession st callID fromTag toTag o).1, Out.ok v) ∧
      (StartSpySession st callID fromTag toTag o).1.sourcesMuHeld = false ∧
      (StartSpySession st callID fromTag toTag o).1.nextId = st.nextId + 6 ∧
      subCount (StartSpySession st callID fromTag toTag o).1.events callID =
        subCount st.events callID + 2 ∧
      (∃ src2, alookup callID (StartSpySession st callID fromTag toTag o).1.sources = some src2 ∧
        src2.sessions.length = 1 ∧
        (∀ k ∈ src2.sessions.map Prod.fst,
          k < (StartSpySession st callID fromTag toTag o).1.nextId)) ∧
      ((st.sources.map Prod.fst).Nodup →
        ((StartSpySession st callID fromTag toTag o).1.sources.map Prod.fst).Nodup) := by
  obtain ⟨hfL, htL, hsess, f0, t0, hdet⟩ := hgood
  have htags : ∃ f1 t1, (if fromTag = "" ∨ toTag = "" then detectTags o.query
      else Except.ok (fromTag, toTag)) = Except.ok (f1, t1) := by
    split
    · exact ⟨f0, t0, hdet⟩
    · exact ⟨fromTag, toTag, rfl⟩
  obtain ⟨f1, t1, htags⟩ := htags
  rcases hcsE : createSource { st with sourcesMuHeld := true } callID f1 t1 o.srcOracle
    with ⟨st1c, res1⟩
  obtain ⟨src0, hcs, hcid, hsess0, hsrcs, hsesss, hmu2, hnext2, hsubc⟩ :=
    createSource_fields { st with sourcesMuHeld := true } callID f1 t1 o.srcOracle hfL htL
  rw [hcsE] at hcs hsrcs hsesss hmu2 hnext2 hsubc
  have hres1 : res1 = Out.ok src0 := by
    have h := congrArg Prod.snd hcs
    simpa using h
  subst hres1
  have hsrcs2 : st1c.sources = st.sources := hsrcs
  have hnext22 : st1c.nextId = st.nextId + 2 := hnext2
  have hsubc2 : subCount st1c.events callID = subCount st.events callID + 2 := hsubc
  have hsess02 : src0.sessions = ([] : List (Nat × Session)) := hsess0
  have hlook0 : alookup callID (ainsert callID src0 st1c.sources) = some src0 :=
    alookup_ainsert_self _ _ _
  rcases hcse : createSession
      { st1c with sources := ainsert callID src0 st1c.sources, sourcesMuHeld := false }
      callID o.sessOracle with ⟨st2c, res2⟩
  have hres2 : res2 = Except.ok (st1c.nextId + 3, o.sessOracle.offerSDP) := by
    have h := createSession_ok2
      { st1c with sources := ainsert callID src0 st1c.sources, sourcesMuHeld := false }
      callID o.sessOracle hsess
    rw [hcse] at h
    exact h
  subst hres2
  have hst2c : st2c =
      { st1c with
        sources := ainsert callID
          { src0 with
            sessions := ainsert (st1c.nextId + 3)
              ⟨st1c.nextId + 3, st1c.nextId, st1c.nextId + 1, st1c.nextId + 2⟩ src0.sessions }
          (ainsert callID src0 st1c.sources),
        sourcesMuHeld := false,
        nextId := st1c.nextId + 4,
        pcClosed := ainsert st1c.nextId false st1c.pcClosed,
        sessions := ainsert (st1c.nextId + 3)
          ⟨st1c.nextId + 3, st1c.nextId, st1c.nextId + 1, st1c.nextId + 2⟩ st1c.sessions } := by
    have h := createSession_state
      { st1c with sources := ainsert callID src0 st1c.sources, sourcesMuHeld := false }
      callID o.sessOracle src0
      hsess.1 hsess.2.1 hsess.2.2.1 hsess.2.2.2.1 hsess.2.2.2.2.1 hlook0
    rw [hcse] at h
    exact h
  have hrun : StartSpySession st callID fromTag toTag o =
      (st2c, Out.ok (st1c.nextId + 3, o.sessOracle.offerSDP, f1, t1)) := by
    simp only [StartSpySession, htags, habs, hcsE, hcse]
  have hnid : (StartSpySession st callID fromTag toTag o).1.nextId = st.nextId + 6 := by
    rw [hrun, hst2c]
    show st1c.nextId + 4 = st.nextId + 6
    omega
  refine ⟨(st1c.nextId + 3, o.sessOracle.offerSDP, f1, t1), ?_, ?_, ?_, ?_, ?_, ?_⟩
  · rw [hrun]
  · rw [hrun, hst2c]
  · exact hnid
  · rw [hrun, hst2c]
    show subCount st1c.events callID = subCount st.events callID + 2
    exact hsubc2
  · refine ⟨{ src0 with
        sessions := ainsert (st1c.nextId + 3)
          ⟨st1c.nextId + 3, st1c.nextId, st1c.nextId + 1, st1c.nextId + 2⟩ src0.sessions },
      ?_, ?_, ?_⟩
    · rw [hrun, hst2c]
      exact alookup_ainsert_self _ _ _
    · show (ainsert (st1c.nextId + 3) _ src0.sessions).length = 1
      rw [hsess02]
      rfl
    · intro k hk
      rw [hnid]
      rcases (mem_keys_ainsert k _ _ _).mp hk with h1 | h1
      · omega
      · rw [hsess02] at h1
        simp at h1
  · intro hnd
    rw [hrun, hst2c]
    apply nodup_keys_ainsert
    apply nodup_keys_ainsert
    rw [hsrcs2]
    exact hnd

theorem runRequests_steady (callID fromTag toTag : String) (reqs : List SpyOracle) :
    ∀ (st : SpyState) (src : Source),
      (∀ o ∈ reqs, goodOracle o) → st.sourcesMuHeld = false →
      alookup callID st.sources = some src →
      (∀ k ∈ src.sessions.map Prod.fst, k < st.nextId) →
      ∃ src2,
        (runRequests st callID fromTag toTag reqs).sourcesMuHeld = false ∧
        alookup callID (runRequests st callID fromTag toTag reqs).sources = some src2 ∧
        src2.sessions.length = src.sessions.length + reqs.length ∧
        (∀ k ∈ src2.sessions.map Prod.fst,
          k < (runRequests st callID fromTag toTag reqs).nextId) ∧
        subCount (runRequests st callID fromTag toTag reqs).events callID =
          subCount st.events callID ∧
        ((st.sources.map Prod.fst).Nodup →
          ((runRequests st callID fromTag toTag reqs).sources.map Prod.fst).Nodup) := by
  induction reqs with
  | nil =>
    intro st src _ hmu hsrc hb
    exact ⟨src, hmu, hsrc, by simp [runRequests], hb, rfl, id⟩
  | cons o rest ih =>
    intro st src hgoods hmu hsrc hb
    obtain ⟨v, _, hmu2, hnext, hsub, ⟨src2, hlook2, hlen2, hb2⟩, hnodup⟩ :=
      startSpy_step_existing st callID fromTag toTag o src (hgoods o (by simp)) hmu hsrc hb
    simp only [runRequests]
    obtain ⟨src3, h1, h2, h3, h4, h5, h6⟩ :=
      ih ((StartSpySession st callID fromTag toTag o).1) src2
        (fun o2 ho2 => hgoods o2 (by simp [ho2])) hmu2 hlook2 hb2
    refine ⟨src3, h1, h2, ?_, h4, ?_, fun hnd => h6 (hnodup hnd)⟩
    · rw [h3, hlen2]
      simp only [List.length_cons]
      omega
    · rw [h5, hsub]

/-- C9: at most one Source per call id (the table's keys stay
distinct), and for any batch of requests for the same fresh call id —
serialized by the sourcesMu critical section of client.go:566-577 —
exactly two subscribe requests (one per leg) reach the engine, and
every resulting session is attached to the single Source of that call
id. -/
theorem single_flight (st : SpyState) (callID fromTag toTag : String) (o1 : SpyOracle)
    (reqs : List SpyOracle)
    (hmu : st.sourcesMuHeld = false) (habs : alookup callID st.sources = none)
    (hnd : (st.sources.map Prod.fst).Nodup)
    (hg1 : goodOracle o1) (hgr : ∀ o ∈ reqs, goodOracle o) :
    ∃ src,
      alookup callID (runRequests st callID fromTag toTag (o1 :: reqs)).sources = some src ∧
      src.sessions.length = (o1 :: reqs).length ∧
      subCount (runRequests st callID fromTag toTag (o1 :: reqs)).events callID =
        subCount st.events callID + 2 ∧
      ((runRequests st callID fromTag toTag (o1 :: reqs)).sources.map Prod.fst).Nodup := by
  obtain ⟨v, _, hmu2, hnext, hsub, ⟨src2, hlook2, hlen2, hb2⟩, hnodup⟩ :=
    startSpy_step_fresh st callID fromTag toTag o1 hg1 hmu habs
  simp only [runRequests]
  obtain ⟨src3, h1, h2, h3, h4, h5, h6⟩ :=
    runRequests_steady callID fromTag toTag reqs
      ((StartSpySession st callID fromTag toTag o1).1) src2 hgr hmu2 hlook2 hb2
  refine ⟨src3, h2, ?_, ?_, h6 (hnodup hnd)⟩
  · rw [h3, hlen2]
    simp only [List.length_cons]
    omega
  · rw [h5, hsub]

theorem goodOracle_goodSpy : goodOracle goodSpy := by
  unfold goodOracle legOk sessOk
  exact ⟨⟨rfl, ⟨"v=0 offer", "subtag", rfl, by decide⟩, rfl, rfl, rfl, ⟨(), rfl⟩⟩,
    ⟨rfl, ⟨"v=0 offer", "subtag", rfl, by decide⟩, rfl, rfl, rfl, ⟨(), rfl⟩⟩,
    ⟨rfl, rfl, rfl, rfl, rfl, rfl, rfl⟩,
    ⟨"tagA", "tagB", rfl⟩⟩

/-- Witness for C9: three requests for the same fresh call id yield one
Source carrying three sessions and exactly one subscribe pair. -/
theorem single_flight_witness :
    ∃ src,
      alookup "call-X" (runRequests initState "call-X" "tagA" "tagB"
        [goodSpy, goodSpy, goodSpy]).sources = some src ∧
      src.sessions.length = ([goodSpy, goodSpy, goodSpy] : List SpyOracle).length ∧
      subCount (runRequests initState "call-X" "tagA" "tagB"
        [goodSpy, goodSpy, goodSpy]).events "call-X" =
        subCount initState.events "call-X" + 2 ∧
      ((runRequests initState "call-X" "tagA" "tagB"
        [goodSpy, goodSpy, goodSpy]).sources.map Prod.fst).Nodup :=
  single_flight initState "call-X" "tagA" "tagB" goodSpy [goodSpy, goodSpy]
    rfl rfl (by decide) goodOracle_goodSpy
    (fun o ho => by
      have heq : o = goodSpy := by
        simp only [List.mem_cons, List.not_mem_nil, or_false] at ho
        tauto
      rw [heq]
      exact goodOracle_goodSpy)

end RtpMon
